import Mathlib

/-!
Shallow embedding of `src/lektor/themesystem.py` (the Lektor theme system):
an extension registry (`Environment.themes` mapping theme id to instance and
`Environment.theme_ids_by_class` mapping concrete class to id), manipulated
through `ThemeController`, plus convention-based event broadcast (`emit`),
per-build-context config caching (`Theme.get_config`) and entry-point
discovery (`load_themes`).

Python dictionaries are embedded as association lists with Python `dict`
semantics: assignment `d[k] = v` replaces the value in place when the key is
present and appends at the end when it is fresh, and `d.get(k)` returns the
value of the unique entry for `k`.  Exceptions are embedded as `Except` with
the error taxonomy of the source (`RuntimeError` for duplicate registration
and a dead environment weakref, `LookupError` for a lookup miss, the naming
mismatch `RuntimeError` of `load_themes`, `DistributionNotFound` from
`pkg_resources`, and arbitrary exceptions raised by event handlers).
-/

/-- Error taxonomy of the source module: `RuntimeError('Theme ... is already
registered')`, `LookupError('Theme ... not found')`, `RuntimeError('Environment
went away')`, `pkg_resources.DistributionNotFound`, the naming-mismatch
`RuntimeError` of `load_themes`, and any exception raised by an event
handler (abstracted by a numeric code). -/
inductive Err where
  | alreadyRegistered (id : String)
  | themeNotFound
  | environmentWentAway
  | distributionNotFound
  | namingMismatch (entry_name dist_name : String)
  | handlerError (code : Nat)
deriving DecidableEq, Repr

/-- Python `dict.get(k)`: value of the entry for key `k`, if present. -/
def dictGet? {α β : Type} [DecidableEq α] (k : α) : List (α × β) → Option β
  | [] => none
  | (k', v) :: rest => if k' = k then some v else dictGet? k rest

/-- Python `d[k] = v`: replace in place when the key is present, append at
the end when it is fresh (insertion-order semantics of `dict`). -/
def dictInsert {α β : Type} [DecidableEq α] (k : α) (v : β) : List (α × β) → List (α × β)
  | [] => [(k, v)]
  | (k', v') :: rest => if k' = k then (k, v) :: rest else (k', v') :: dictInsert k v rest

theorem dictGet?_dictInsert_self {α β : Type} [DecidableEq α] (k : α) (v : β)
    (d : List (α × β)) : dictGet? k (dictInsert k v d) = some v := by
  induction d with
  | nil => simp [dictInsert, dictGet?]
  | cons p rest ih =>
    obtain ⟨a, b⟩ := p
    by_cases h : a = k <;> simp [dictInsert, dictGet?, h, ih]

theorem dictGet?_dictInsert_ne {α β : Type} [DecidableEq α] {k k' : α} (v : β)
    (d : List (α × β)) (h : k ≠ k') :
    dictGet? k (dictInsert k' v d) = dictGet? k d := by
  induction d with
  | nil => simp [dictInsert, dictGet?, Ne.symm h]
  | cons p rest ih =>
    obtain ⟨a, b⟩ := p
    by_cases h1 : a = k' <;> simp [dictInsert, dictGet?, h1, Ne.symm h, ih]

theorem dictInsert_fresh {α β : Type} [DecidableEq α] {k : α} (v : β)
    {d : List (α × β)} (h : dictGet? k d = none) :
    dictInsert k v d = d ++ [(k, v)] := by
  induction d with
  | nil => rfl
  | cons p rest ih =>
    obtain ⟨a, b⟩ := p
    by_cases h1 : a = k
    · simp [dictGet?, h1] at h
    · simp [dictGet?, h1] at h
      simp [dictInsert, h1, ih h]

/-- A registered theme instance, as constructed by `theme_cls(env, theme_id)`
inside `ThemeController.instanciate_theme`: it records the id it was bound to
and the identity of its concrete class (class objects are abstracted by
natural numbers, which preserves exactly their identity semantics). -/
structure ThemeInst where
  id : String
  cls : Nat
deriving DecidableEq, Repr

/-- The registry state owned by the `Environment`: `env.themes` (theme id to
instance) and `env.theme_ids_by_class` (concrete class to theme id). -/
structure REnv where
  themes : List (String × ThemeInst)
  theme_ids_by_class : List (Nat × String)
deriving DecidableEq, Repr

/-- The freshly constructed `Environment`, with both registry maps empty. -/
def emptyREnv : REnv := { themes := [], theme_ids_by_class := [] }

/-- `ThemeController.instanciate_theme`: raises
`RuntimeError('Theme ... is already registered')` when `theme_id` is already a
key of `env.themes`, otherwise stores `theme_cls(env, theme_id)` in
`env.themes` and records `theme_cls` in `env.theme_ids_by_class`.  The raise
happens before either map is touched, so the error carries the registry state
as it was at the raise: exactly the state passed in. -/
def ThemeController.instanciate_theme (env : REnv) (theme_id : String)
    (theme_cls : Nat) : Except (Err × REnv) REnv :=
  if (dictGet? theme_id env.themes).isSome then
    .error (.alreadyRegistered theme_id, env)
  else
    let env1 := { env with themes := dictInsert theme_id ⟨theme_id, theme_cls⟩ env.themes }
    .ok { env1 with theme_ids_by_class := dictInsert theme_cls theme_id env1.theme_ids_by_class }

/-- A sequence of `instanciate_theme` calls on one `Environment`, as performed
by `initialize_themes`; stops at the first raise. -/
def runInstanciations : REnv → List (String × Nat) → Except (Err × REnv) REnv
  | env, [] => .ok env
  | env, (i, c) :: rest =>
    match ThemeController.instanciate_theme env i c with
    | .error e => .error e
    | .ok env1 => runInstanciations env1 rest

/-- Argument of `get_theme`: either a theme id (a string) or a concrete theme
class.  The two are disjoint kinds of Python objects, so
`theme_ids_by_class.get(arg, arg)` never finds a string id among the class
keys; the sum type reflects that. -/
inductive IdOrClass where
  | themeId (i : String)
  | themeCls (c : Nat)
deriving DecidableEq, Repr

/-- `get_theme(theme_id_or_class, env)` with an explicit environment:
a class argument is first translated through `env.theme_ids_by_class.get`
(falling back to the argument itself when absent), then the result is looked
up in `env.themes`; a miss raises `LookupError('Theme ... not found')`. -/
def get_theme (env : REnv) (theme_id_or_class : IdOrClass) : Except Err ThemeInst :=
  match theme_id_or_class with
  | .themeId i =>
    match dictGet? i env.themes with
    | some t => .ok t
    | none => .error .themeNotFound
  | .themeCls c =>
    match dictGet? c env.theme_ids_by_class with
    | some i =>
      match dictGet? i env.themes with
      | some t => .ok t
      | none => .error .themeNotFound
    | none => .error .themeNotFound

/-- The registry invariant claimed by the spec: `theme_ids_by_class` and
`themes` form a 1:1 correspondence — every class key maps to an id whose live
`themes` entry has that class, and every registered instance's class maps
back to exactly its id. -/
def registryBijective (env : REnv) : Prop :=
  (∀ c i, dictGet? c env.theme_ids_by_class = some i →
    ∃ t, dictGet? i env.themes = some t ∧ t.cls = c) ∧
  (∀ i t, dictGet? i env.themes = some t →
    dictGet? t.cls env.theme_ids_by_class = some i)

/-- Every registered instance carries the id it is registered under (it was
constructed as `theme_cls(env, theme_id)` at insertion). -/
def idsMatch (env : REnv) : Prop :=
  ∀ i t, dictGet? i env.themes = some t → t.id = i

theorem instanciate_preserves_inv {env env' : REnv} {i : String} {c : Nat}
    (hb : registryBijective env) (hm : idsMatch env)
    (hc : dictGet? c env.theme_ids_by_class = none)
    (h : ThemeController.instanciate_theme env i c = .ok env') :
    registryBijective env' ∧ idsMatch env' ∧
      env'.theme_ids_by_class = dictInsert c i env.theme_ids_by_class := by
  cases hget : dictGet? i env.themes with
  | some t => simp [ThemeController.instanciate_theme, hget] at h
  | none =>
    simp only [ThemeController.instanciate_theme, hget, Option.isSome_none,
      Bool.false_eq_true, if_false, Except.ok.injEq] at h
    subst h
    refine ⟨⟨?_, ?_⟩, ?_, rfl⟩
    · intro c' i' hci
      by_cases hcc : c' = c
      · rw [hcc] at hci ⊢
        rw [dictGet?_dictInsert_self] at hci
        injection hci with hii
        rw [← hii]
        exact ⟨⟨i, c⟩, dictGet?_dictInsert_self i ⟨i, c⟩ env.themes, rfl⟩
      · rw [dictGet?_dictInsert_ne _ _ hcc] at hci
        obtain ⟨t, ht, hcls⟩ := hb.1 c' i' hci
        have hii : i' ≠ i := by
          intro hh
          subst hh
          rw [hget] at ht
          cases ht
        rw [dictGet?_dictInsert_ne _ _ hii]
        exact ⟨t, ht, hcls⟩
    · intro i' t' hti
      by_cases hii : i' = i
      · rw [hii] at hti ⊢
        rw [dictGet?_dictInsert_self] at hti
        injection hti with htt
        rw [← htt]
        exact dictGet?_dictInsert_self c i env.theme_ids_by_class
      · rw [dictGet?_dictInsert_ne _ _ hii] at hti
        have hold := hb.2 i' t' hti
        have hcc : t'.cls ≠ c := by
          intro hh
          rw [hh, hc] at hold
          cases hold
        rw [dictGet?_dictInsert_ne _ _ hcc]
        exact hold
    · intro i' t' hti
      by_cases hii : i' = i
      · rw [hii] at hti ⊢
        rw [dictGet?_dictInsert_self] at hti
        injection hti with htt
        rw [← htt]
      · rw [dictGet?_dictInsert_ne _ _ hii] at hti
        exact hm i' t' hti

theorem emptyREnv_bij : registryBijective emptyREnv := by
  constructor <;> intro a b hab <;> simp [emptyREnv, dictGet?] at hab

theorem emptyREnv_idsMatch : idsMatch emptyREnv := by
  intro i t hti
  simp [emptyREnv, dictGet?] at hti

theorem runInstanciations_inv (calls : List (String × Nat)) :
    ∀ (env env' : REnv), registryBijective env → idsMatch env →
    (∀ p ∈ calls, dictGet? p.2 env.theme_ids_by_class = none) →
    (calls.map Prod.snd).Nodup →
    runInstanciations env calls = .ok env' →
    registryBijective env' ∧ idsMatch env' := by
  induction calls with
  | nil =>
    intro env env' hb hm _ _ h
    simp only [runInstanciations, Except.ok.injEq] at h
    subst h
    exact ⟨hb, hm⟩
  | cons p rest ih =>
    intro env env' hb hm hfresh hnd h
    obtain ⟨i, c⟩ := p
    rw [List.map_cons, List.nodup_cons] at hnd
    obtain ⟨hcnot, hndrest⟩ := hnd
    cases hstep : ThemeController.instanciate_theme env i c with
    | error e => simp [runInstanciations, hstep] at h
    | ok env1 =>
      simp only [runInstanciations, hstep] at h
      have hc : dictGet? c env.theme_ids_by_class = none :=
        hfresh (i, c) (List.mem_cons_self _ _)
      obtain ⟨hb1, hm1, heq⟩ := instanciate_preserves_inv hb hm hc hstep
      apply ih env1 env' hb1 hm1 ?_ hndrest h
      intro q hq
      rw [heq]
      have hne : q.2 ≠ c := by
        intro hqc
        have hmem : q.2 ∈ rest.map Prod.snd := List.mem_map_of_mem Prod.snd hq
        rw [hqc] at hmem
        exact hcnot hmem
      rw [dictGet?_dictInsert_ne _ _ hne]
      exact hfresh q (List.mem_cons_of_mem _ hq)

/-- Registry state reached by registering the same concrete class under two
distinct ids: `theme_ids_by_class` keeps only the last id for the class. -/
def badREnv : REnv :=
  { themes := [("a", ⟨"a", 0⟩), ("b", ⟨"b", 0⟩)], theme_ids_by_class := [(0, "b")] }

/-- Registry state reached by two registrations with distinct classes. -/
def goodREnv : REnv :=
  { themes := [("a", ⟨"a", 0⟩), ("b", ⟨"b", 1⟩)], theme_ids_by_class := [(0, "a"), (1, "b")] }

/-- C1 counterexample: the claim quantifies over any ids and any concrete
classes, but a sequence of two successful `instanciate_theme` calls that
reuses one class under two ids leaves the two maps out of bijection: the
entry for id `"a"` has class `0`, yet `theme_ids_by_class` maps class `0`
to `"b"` only. -/
theorem registry_bijection_counterexample :
    runInstanciations emptyREnv [("a", 0), ("b", 0)] = .ok badREnv ∧
    ¬ registryBijective badREnv :=
  ⟨rfl, fun hbij => absurd (hbij.2 "a" ⟨"a", 0⟩ (by decide)) (by decide)⟩

/-- C1 (amended): after any sequence of successful `instanciate_theme` calls
on one fresh Environment whose concrete classes are pairwise distinct, the
two registry maps `themes` and `theme_ids_by_class` form a 1:1 bijection. -/
theorem registry_bijective_of_distinct_classes (calls : List (String × Nat))
    (env' : REnv) (hnd : (calls.map Prod.snd).Nodup)
    (h : runInstanciations emptyREnv calls = .ok env') :
    registryBijective env' :=
  (runInstanciations_inv calls emptyREnv env' emptyREnv_bij emptyREnv_idsMatch
    (fun _ _ => rfl) hnd h).1

/-- C1 witness: a concrete two-call run with distinct classes reaches a
bijective registry. -/
theorem registry_bijective_of_distinct_classes_witness :
    (([("a", 0), ("b", 1)] : List (String × Nat)).map Prod.snd).Nodup ∧
    runInstanciations emptyREnv [("a", 0), ("b", 1)] = .ok goodREnv ∧
    registryBijective goodREnv :=
  ⟨by decide, rfl,
    registry_bijective_of_distinct_classes [("a", 0), ("b", 1)] goodREnv (by decide) rfl⟩

/-- C2: calling `instanciate_theme` with an id that is already registered
raises `RuntimeError('Theme ... is already registered')`, and the raise
happens before either registry map is touched, so the error carries the
registry exactly as it was before the call. -/
theorem instanciate_duplicate_id_errors (env : REnv) (theme_id : String)
    (theme_cls : Nat) (t : ThemeInst)
    (h : dictGet? theme_id env.themes = some t) :
    ThemeController.instanciate_theme env theme_id theme_cls =
      .error (.alreadyRegistered theme_id, env) := by
  simp [ThemeController.instanciate_theme, h]

/-- C2 witness: re-registering id `"a"` in a registry that holds it fails and
leaves the registry untouched. -/
theorem instanciate_duplicate_id_errors_witness :
    dictGet? "a" badREnv.themes = some ⟨"a", 0⟩ ∧
    ThemeController.instanciate_theme badREnv "a" 7 =
      .error (.alreadyRegistered "a", badREnv) :=
  ⟨by decide, instanciate_duplicate_id_errors badREnv "a" 7 ⟨"a", 0⟩ (by decide)⟩

/-- C3 counterexample: in a registry reached by two successful calls reusing
one class, `get_theme` by id `"a"` returns the handle with class `0`, but
`get_theme` by that handle's class returns the other handle, so the
round-trip of the claim fails. -/
theorem get_theme_class_lookup_counterexample :
    runInstanciations emptyREnv [("a", 0), ("b", 0)] = .ok badREnv ∧
    get_theme badREnv (.themeId "a") = .ok ⟨"a", 0⟩ ∧
    get_theme badREnv (.themeCls 0) = .ok ⟨"b", 0⟩ ∧
    (⟨"b", 0⟩ : ThemeInst) ≠ (⟨"a", 0⟩ : ThemeInst) :=
  ⟨rfl, rfl, rfl, by decide⟩

/-- C3 (amended): in an Environment built by successful `instanciate_theme`
calls with pairwise distinct concrete classes, every registered id yields a
handle with that id, and looking the handle's concrete class up returns the
same handle. -/
theorem get_theme_roundtrip_of_distinct_classes (calls : List (String × Nat))
    (env' : REnv) (i : String) (t : ThemeInst)
    (hnd : (calls.map Prod.snd).Nodup)
    (hrun : runInstanciations emptyREnv calls = .ok env')
    (ht : dictGet? i env'.themes = some t) :
    t.id = i ∧ get_theme env' (.themeId i) = .ok t ∧
      get_theme env' (.themeCls t.cls) = .ok t := by
  obtain ⟨hb, hm⟩ := runInstanciations_inv calls emptyREnv env' emptyREnv_bij
    emptyREnv_idsMatch (fun _ _ => rfl) hnd hrun
  refine ⟨hm i t ht, ?_, ?_⟩
  · simp [get_theme, ht]
  · have hcls := hb.2 i t ht
    simp [get_theme, hcls, ht]

/-- C3 witness: the round-trip at id `"b"` in a concrete registry reached
with distinct classes. -/
theorem get_theme_roundtrip_witness :
    (([("a", 0), ("b", 1)] : List (String × Nat)).map Prod.snd).Nodup ∧
    runInstanciations emptyREnv [("a", 0), ("b", 1)] = .ok goodREnv ∧
    dictGet? "b" goodREnv.themes = some ⟨"b", 1⟩ ∧
    ((⟨"b", 1⟩ : ThemeInst).id = "b" ∧
      get_theme goodREnv (.themeId "b") = .ok ⟨"b", 1⟩ ∧
      get_theme goodREnv (.themeCls (⟨"b", 1⟩ : ThemeInst).cls) = .ok ⟨"b", 1⟩) :=
  ⟨by decide, rfl, by decide,
    get_theme_roundtrip_of_distinct_classes [("a", 0), ("b", 1)] goodREnv "b" ⟨"b", 1⟩
      (by decide) rfl (by decide)⟩

/-- Python `event.replace('-', '_')`: every dash becomes an underscore. -/
def dashToUnderscore (s : String) : String :=
  String.mk (s.data.map fun ch => if ch = '-' then '_' else ch)

/-- Return values of event handlers (abstracted). -/
abbrev Value := Nat

/-- The `**kwargs` passed through `emit` to every handler. -/
abbrev Kwargs := List (String × Value)

/-- An `on_*` handler method: receives the keyword arguments and either
returns a value or raises. -/
abbrev Handler := Kwargs → Except Err Value

/-- A theme instance as seen by dispatch and the handle accessors: its id,
the class attributes `name` and `description` (with the defaults of the
`Theme` base class), the defining module/class names and the module's
directory (`__module__`, `__name__`, `os.path.dirname(mod.__file__)`), and
its table of `on_*` methods (duck-typed `getattr` lookup). -/
structure Theme where
  id : String
  name : String := "Your Theme Name"
  description : String := "Description goes here"
  modName : String := ""
  clsName : String := ""
  modPath : String := ""
  handlers : List (String × Handler) := []

/-- The parts of the live `Environment` that the `Theme` accessors consult:
`root_path`, `project.get_package_cache_path()`, and the registered theme
instances in dict-value iteration order (`itervalues(env.themes)`, consumed
by `ThemeController.iter_themes`). -/
structure EnvObj where
  root_path : String
  package_cache_path : String
  themes : List Theme

/-- The loop body of `ThemeController.emit`: walk the themes, look the
handler up with `getattr(theme, funcname, None)`, skip a theme without the
handler, call the handler and record `rv[theme.id] = handler(**kwargs)`;
an exception from a handler propagates immediately, discarding `rv`. -/
def ThemeController.emitGo (funcname : String) (kw : Kwargs) :
    List (String × Value) → List Theme → Except Err (List (String × Value))
  | rv, [] => .ok rv
  | rv, t :: rest =>
    match dictGet? funcname t.handlers with
    | none => ThemeController.emitGo funcname kw rv rest
    | some h =>
      match h kw with
      | .error e => .error e
      | .ok v => ThemeController.emitGo funcname kw (dictInsert t.id v rv) rest

/-- `ThemeController.emit(event, **kwargs)`: builds the handler name
`'on_' + event.replace('-', '_')` and fans out over the registered themes. -/
def ThemeController.emit (themes : List Theme) (event : String) (kw : Kwargs) :
    Except Err (List (String × Value)) :=
  ThemeController.emitGo ("on_" ++ dashToUnderscore event) kw [] themes

/-- Instrumentation of the same loop: the ids whose handler actually gets
invoked, in order, stopping right after a handler raises.  This is the
observable side-effect trace of the fan-out. -/
def ThemeController.emitInvoked (funcname : String) (kw : Kwargs) : List Theme → List String
  | [] => []
  | t :: rest =>
    match dictGet? funcname t.handlers with
    | none => ThemeController.emitInvoked funcname kw rest
    | some h =>
      t.id :: (match h kw with
        | .error _ => []
        | .ok _ => ThemeController.emitInvoked funcname kw rest)

/-- `Theme.emit(event, **kwargs)`: resolves the environment weakref (raising
`RuntimeError('Environment went away')` when it is gone) and delegates to
`env.themesystem.emit` with the event name `self.id + '-' + event`. -/
def Theme.emit (self : Theme) (envRef : Option EnvObj) (event : String)
    (kw : Kwargs) : Except Err (List (String × Value)) :=
  match envRef with
  | none => .error .environmentWentAway
  | some env => ThemeController.emit env.themes (self.id ++ "-" ++ event) kw

/-- C9: with a live environment, a handle's `emit(event, **kwargs)` is
exactly the controller's broadcast of `'<id>-<event>'` with the same
keyword arguments, returning that broadcast's id-to-result mapping. -/
theorem theme_emit_delegates (self : Theme) (env : EnvObj) (event : String)
    (kw : Kwargs) :
    Theme.emit self (some env) event kw =
      ThemeController.emit env.themes (self.id ++ "-" ++ event) kw := rfl

/-- C10: broadcast depends on the event string only through the derived
handler name, so two events that collide after dash-to-underscore
replacement invoke the same handlers and return equal mappings. -/
theorem emit_event_name_collision (themes : List Theme) (e1 e2 : String)
    (kw : Kwargs) (h : dashToUnderscore e1 = dashToUnderscore e2) :
    ThemeController.emit themes e1 kw = ThemeController.emit themes e2 kw := by
  unfold ThemeController.emit
  rw [h]

/-- Handler that returns a fixed value, for concrete instantiations. -/
def okHandler (v : Value) : Handler := fun _ => .ok v

/-- Handler that raises, for concrete instantiations. -/
def failingHandler : Handler := fun _ => .error (.handlerError 3)

/-- Sample theme exposing `on_setup_env`. -/
def wA : Theme := { id := "alpha", handlers := [("on_setup_env", okHandler 1)] }

/-- Sample theme whose `on_setup_env` handler raises. -/
def wB : Theme := { id := "beta", handlers := [("on_setup_env", failingHandler)] }

/-- Sample theme exposing `on_setup_env` with another return value. -/
def wC : Theme := { id := "gamma", handlers := [("on_setup_env", okHandler 2)] }

/-- Sample theme with no handlers at all. -/
def wD : Theme := { id := "delta" }

/-- C10 witness: `'setup-env'` and `'setup_env'` collide after replacement
and produce identical broadcast results on a concrete registry. -/
theorem emit_event_name_collision_witness :
    dashToUnderscore "setup-env" = dashToUnderscore "setup_env" ∧
    ThemeController.emit [wA, wD] "setup-env" [] =
      ThemeController.emit [wA, wD] "setup_env" [] :=
  ⟨rfl, emit_event_name_collision [wA, wD] "setup-env" "setup_env" [] rfl⟩

theorem emitGo_ok_char (fname : String) (kw : Kwargs) (ts : List Theme) :
    ∀ (acc rv : List (String × Value)),
    (ts.map Theme.id).Nodup →
    (∀ t ∈ ts, dictGet? t.id acc = none) →
    ThemeController.emitGo fname kw acc ts = .ok rv →
    ∀ i v, dictGet? i rv = some v ↔
      (dictGet? i acc = some v ∨
        ∃ t, t ∈ ts ∧ t.id = i ∧
          ∃ h, dictGet? fname t.handlers = some h ∧ h kw = .ok v) := by
  induction ts with
  | nil =>
    intro acc rv _ _ h i v
    simp only [ThemeController.emitGo, Except.ok.injEq] at h
    subst h
    simp
  | cons t rest ih =>
    intro acc rv hnd hacc h i v
    rw [List.map_cons, List.nodup_cons] at hnd
    obtain ⟨hnotin, hndrest⟩ := hnd
    cases hh : dictGet? fname t.handlers with
    | none =>
      simp only [ThemeController.emitGo, hh] at h
      rw [ih acc rv hndrest (fun t' ht' => hacc t' (List.mem_cons_of_mem _ ht')) h i v]
      constructor
      · rintro (hl | ⟨t', ht', hrest⟩)
        · exact Or.inl hl
        · exact Or.inr ⟨t', List.mem_cons_of_mem _ ht', hrest⟩
      · rintro (hl | ⟨t', ht', hid, h', hget, hkw'⟩)
        · exact Or.inl hl
        · rcases List.mem_cons.mp ht' with heq | hmem
          · rw [heq, hh] at hget
            cases hget
          · exact Or.inr ⟨t', hmem, hid, h', hget, hkw'⟩
    | some hd =>
      cases hkw : hd kw with
      | error e =>
        simp only [ThemeController.emitGo, hh, hkw] at h
        exact Except.noConfusion h
      | ok v' =>
        simp only [ThemeController.emitGo, hh, hkw] at h
        have haccne : ∀ t' ∈ rest, dictGet? t'.id (dictInsert t.id v' acc) = none := by
          intro t' ht'
          have hne : t'.id ≠ t.id := by
            intro hh2
            have hmem : t'.id ∈ rest.map Theme.id := List.mem_map_of_mem Theme.id ht'
            rw [hh2] at hmem
            exact hnotin hmem
          rw [dictGet?_dictInsert_ne _ _ hne]
          exact hacc t' (List.mem_cons_of_mem _ ht')
        rw [ih (dictInsert t.id v' acc) rv hndrest haccne h i v]
        constructor
        · rintro (hl | ⟨t', ht', hrest⟩)
          · by_cases hit : i = t.id
            · rw [hit, dictGet?_dictInsert_self] at hl
              injection hl with hv
              exact Or.inr ⟨t, List.mem_cons_self _ _, hit.symm, hd, hh, by rw [hkw, hv]⟩
            · rw [dictGet?_dictInsert_ne _ _ hit] at hl
              exact Or.inl hl
          · exact Or.inr ⟨t', List.mem_cons_of_mem _ ht', hrest⟩
        · rintro (hl | ⟨t', ht', hid, h', hget, hkw'⟩)
          · have hit : i ≠ t.id := by
              intro hh2
              rw [hh2, hacc t (List.mem_cons_self _ _)] at hl
              cases hl
            rw [dictGet?_dictInsert_ne _ _ hit]
            exact Or.inl hl
          · rcases List.mem_cons.mp ht' with heq | hmem
            · rw [heq] at hget hid
              rw [hh] at hget
              injection hget with hgeq
              rw [hgeq, hkw'] at hkw
              injection hkw with hv
              refine Or.inl ?_
              rw [← hid, dictGet?_dictInsert_self, hv]
            · exact Or.inr ⟨t', hmem, hid, h', hget, hkw'⟩

theorem emitInvoked_of_ok (fname : String) (kw : Kwargs) (ts : List Theme) :
    ∀ (acc rv : List (String × Value)),
    ThemeController.emitGo fname kw acc ts = .ok rv →
    ThemeController.emitInvoked fname kw ts =
      (ts.filter fun t => (dictGet? fname t.handlers).isSome).map Theme.id := by
  induction ts with
  | nil => intro acc rv _; rfl
  | cons t rest ih =>
    intro acc rv h
    cases hh : dictGet? fname t.handlers with
    | none =>
      simp only [ThemeController.emitGo, hh] at h
      simp only [ThemeController.emitInvoked, hh]
      rw [List.filter_cons_of_neg (by simp [hh])]
      exact ih acc rv h
    | some hd =>
      cases hkw : hd kw with
      | error e =>
        simp only [ThemeController.emitGo, hh, hkw] at h
        exact Except.noConfusion h
      | ok v' =>
        simp only [ThemeController.emitGo, hh, hkw] at h
        simp only [ThemeController.emitInvoked, hh, hkw]
        rw [List.filter_cons_of_pos (by simp [hh]), List.map_cons]
        rw [ih _ rv h]

/-- C4: a successful broadcast of `event` computes the handler name
`'on_' + event.replace('-', '_')`, invokes it with the given keyword
arguments on exactly the registered themes that expose it (silently
skipping the rest), and the returned mapping holds exactly the invoked
themes' ids, each bound to its handler's return value. -/
theorem broadcast_keys_are_handler_ids (themes : List Theme) (event : String)
    (kw : Kwargs) (rv : List (String × Value))
    (hnd : (themes.map Theme.id).Nodup)
    (hok : ThemeController.emit themes event kw = .ok rv) :
    (∀ i v, dictGet? i rv = some v ↔
      ∃ t, t ∈ themes ∧ t.id = i ∧
        ∃ h, dictGet? ("on_" ++ dashToUnderscore event) t.handlers = some h ∧
          h kw = .ok v) ∧
    ThemeController.emitInvoked ("on_" ++ dashToUnderscore event) kw themes =
      (themes.filter fun t =>
        (dictGet? ("on_" ++ dashToUnderscore event) t.handlers).isSome).map Theme.id := by
  constructor
  · intro i v
    rw [emitGo_ok_char ("on_" ++ dashToUnderscore event) kw themes [] rv hnd
      (fun _ _ => rfl) hok i v]
    simp [dictGet?]
  · exact emitInvoked_of_ok ("on_" ++ dashToUnderscore event) kw themes [] rv hok

/-- C4 witness: broadcasting `'setup-env'` to three themes of which two
expose `on_setup_env` returns exactly those two ids with their handlers'
values, and invokes exactly them. -/
theorem broadcast_keys_are_handler_ids_witness :
    (([wA, wC, wD].map Theme.id).Nodup) ∧
    ThemeController.emit [wA, wC, wD] "setup-env" [] =
      .ok [("alpha", 1), ("gamma", 2)] ∧
    ((∀ i v, dictGet? i [("alpha", 1), ("gamma", 2)] = some v ↔
      ∃ t, t ∈ [wA, wC, wD] ∧ t.id = i ∧
        ∃ h, dictGet? ("on_" ++ dashToUnderscore "setup-env") t.handlers = some h ∧
          h [] = .ok v) ∧
    ThemeController.emitInvoked ("on_" ++ dashToUnderscore "setup-env") [] [wA, wC, wD] =
      ([wA, wC, wD].filter fun t =>
        (dictGet? ("on_" ++ dashToUnderscore "setup-env") t.handlers).isSome).map Theme.id) :=
  ⟨by decide, rfl,
    broadcast_keys_are_handler_ids [wA, wC, wD] "setup-env" [] [("alpha", 1), ("gamma", 2)]
      (by decide) rfl⟩

theorem emitGo_error_at (fname : String) (kw : Kwargs) (tf : Theme)
    (hf : Handler) (er : Err)
    (hget : dictGet? fname tf.handlers = some hf) (herr : hf kw = .error er)
    (pre : List Theme) :
    ∀ (post : List Theme) (acc : List (String × Value)),
    (∀ t ∈ pre, ∀ h, dictGet? fname t.handlers = some h → ∃ v, h kw = .ok v) →
    ThemeController.emitGo fname kw acc (pre ++ tf :: post) = .error er ∧
    ThemeController.emitInvoked fname kw (pre ++ tf :: post) =
      ((pre.filter fun t => (dictGet? fname t.handlers).isSome).map Theme.id)
        ++ [tf.id] := by
  induction pre with
  | nil =>
    intro post acc _
    constructor
    · simp only [List.nil_append, ThemeController.emitGo, hget, herr]
    · simp only [List.nil_append, ThemeController.emitInvoked, hget, herr]
      simp
  | cons t rest ih =>
    intro post acc hpre
    cases hh : dictGet? fname t.handlers with
    | none =>
      have hrec := ih post acc (fun t' ht' => hpre t' (List.mem_cons_of_mem _ ht'))
      constructor
      · simp only [List.cons_append, ThemeController.emitGo, hh]
        exact hrec.1
      · simp only [List.cons_append, ThemeController.emitInvoked, hh, List.append_eq]
        rw [hrec.2, List.filter_cons_of_neg (by simp [hh])]
    | some hd =>
      obtain ⟨v, hv⟩ := hpre t (List.mem_cons_self _ _) hd hh
      have hrec := ih post (dictInsert t.id v acc)
        (fun t' ht' => hpre t' (List.mem_cons_of_mem _ ht'))
      constructor
      · simp only [List.cons_append, ThemeController.emitGo, hh, hv]
        exact hrec.1
      · simp only [List.cons_append, ThemeController.emitInvoked, hh, hv, List.append_eq]
        rw [hrec.2, List.filter_cons_of_pos (by simp [hh]), List.map_cons,
          List.cons_append]

/-- C8: broadcast walks the themes strictly in iteration order; when the
handler of some theme raises, the exception propagates immediately to the
caller — the broadcast result is that error —, every earlier theme that
exposes the handler has already been invoked (their invocations are not
rolled back), and no theme after the failing one is invoked at all. -/
theorem broadcast_aborts_on_handler_failure (pre post : List Theme) (tf : Theme)
    (event : String) (kw : Kwargs) (hf : Handler) (er : Err)
    (hget : dictGet? ("on_" ++ dashToUnderscore event) tf.handlers = some hf)
    (herr : hf kw = .error er)
    (hpre : ∀ t ∈ pre, ∀ h,
      dictGet? ("on_" ++ dashToUnderscore event) t.handlers = some h →
        ∃ v, h kw = .ok v) :
    ThemeController.emit (pre ++ tf :: post) event kw = .error er ∧
    ThemeController.emitInvoked ("on_" ++ dashToUnderscore event) kw (pre ++ tf :: post) =
      ((pre.filter fun t =>
        (dictGet? ("on_" ++ dashToUnderscore event) t.handlers).isSome).map Theme.id)
        ++ [tf.id] :=
  emitGo_error_at ("on_" ++ dashToUnderscore event) kw tf hf er hget herr pre post [] hpre

/-- C8 witness: with themes alpha, beta, gamma where beta's `on_setup_env`
raises, broadcasting `'setup-env'` propagates beta's exception, alpha's
handler has been invoked, and gamma's never is. -/
theorem broadcast_aborts_on_handler_failure_witness :
    dictGet? ("on_" ++ dashToUnderscore "setup-env") wB.handlers = some failingHandler ∧
    failingHandler [] = .error (.handlerError 3) ∧
    (ThemeController.emit ([wA] ++ wB :: [wC]) "setup-env" [] =
        .error (.handlerError 3) ∧
      ThemeController.emitInvoked ("on_" ++ dashToUnderscore "setup-env") [] ([wA] ++ wB :: [wC]) =
        (([wA].filter fun t =>
          (dictGet? ("on_" ++ dashToUnderscore "setup-env") t.handlers).isSome).map Theme.id)
          ++ [wB.id]) :=
  ⟨rfl, rfl,
    broadcast_aborts_on_handler_failure [wA] [wC] wB "setup-env" [] failingHandler
      (.handlerError 3) rfl rfl
      (by
        intro t ht h hget2
        rw [List.mem_singleton] at ht
        rw [ht] at hget2
        rw [show dictGet? ("on_" ++ dashToUnderscore "setup-env") wA.handlers
            = some (okHandler 1) from rfl] at hget2
        injection hget2 with hh2
        exact ⟨1, by rw [← hh2]; rfl⟩)⟩

/-- `Theme.env`: dereference the weak reference to the environment
(`self._env()`); raises `RuntimeError('Environment went away')` when the
referent has been destroyed.  `envRef` is the deref result: `some` while the
environment is alive, `none` once it is gone. -/
def Theme.env (envRef : Option EnvObj) : Except Err EnvObj :=
  match envRef with
  | none => .error .environmentWentAway
  | some e => .ok e

/-- `Theme.version`: `get_distribution('lektor-' + self.id).version`, with
the installed distributions given as a name-to-version map; raises
`DistributionNotFound` when absent.  Note that the property never touches
`self._env`, so `envRef` is deliberately unused, exactly as in the source. -/
def Theme.version (self : Theme) (envRef : Option EnvObj)
    (dist : List (String × String)) : Except Err String :=
  match dictGet? ("lektor-" ++ self.id) dist with
  | some v => .ok v
  | none => .error .distributionNotFound

/-- `Theme.path`: the directory of the defining module, or `None` when that
directory lies inside `self.env.project.get_package_cache_path()`; resolving
`self.env` raises when the environment is gone. -/
def Theme.path (self : Theme) (envRef : Option EnvObj) : Except Err (Option String) :=
  match Theme.env envRef with
  | .error err => .error err
  | .ok env =>
    if ¬ self.modPath.startsWith env.package_cache_path then .ok (some self.modPath)
    else .ok none

/-- `Theme.import_name`: `self.__class__.__module__ + ':' +
self.__class__.__name__`; touches no environment state, so `envRef` is
deliberately unused, exactly as in the source. -/
def Theme.import_name (self : Theme) (envRef : Option EnvObj) : String :=
  self.modName ++ ":" ++ self.clsName

/-- `Theme.config_filename`: `os.path.join(self.env.root_path, 'configs',
self.id + '.ini')`; resolving `self.env` raises when the environment is
gone. -/
def Theme.config_filename (self : Theme) (envRef : Option EnvObj) : Except Err String :=
  match Theme.env envRef with
  | .error err => .error err
  | .ok env => .ok (env.root_path ++ "/configs/" ++ self.id ++ ".ini")

/-- The build context returned by `get_ctx()`: its `cache` dict (keyed by
namespace strings such as `configsKey`, each holding a theme-id-to-config
dict) and its recorded dependencies. -/
structure BuildCtx where
  cache : List (String × List (String × Nat))
  deps : List String
deriving DecidableEq, Repr

/-- Ambient state of one `get_config` call: the active build context (if
any) and an allocation counter that gives each constructed `IniFile` object
a distinct identity, so that reference equality of config objects is
observable in the embedding. -/
structure World where
  ctx : Option BuildCtx
  nextObj : Nat
deriving DecidableEq, Repr

/-- The cache namespace used by `get_config`: `__name__ + ':configs'`. -/
def configsKey : String := "lektor.themesystem" ++ ":configs"

/-- Cache dict of the active build context (empty when no context). -/
def cacheOf : World → List (String × List (String × Nat))
  | ⟨some c, _⟩ => c.cache
  | ⟨none, _⟩ => []

/-- `Theme.get_config(fresh)`: with an active context and `fresh` unset, it
takes `ctx.cache.setdefault(__name__ + ':configs', {})` (which inserts the
namespace entry when missing), returns the cached config for `self.id` or
builds one (`IniFile(self.config_filename)` — resolving the environment)
and stores it; otherwise it builds a fresh config every call without
touching the cache.  Whenever a context is active,
`ctx.record_dependency(self.config_filename)` runs afterwards.  Config
objects are identified by allocation numbers drawn from `World.nextObj`. -/
def Theme.get_config (self : Theme) (envRef : Option EnvObj) (fresh : Bool)
    (w : World) : Except Err (Nat × World) :=
  match w, fresh with
  | ⟨some c, n⟩, false =>
    match dictGet? self.id ((dictGet? configsKey c.cache).getD []) with
    | some cfg =>
      match Theme.config_filename self envRef with
      | .error err => .error err
      | .ok fn =>
        .ok (cfg, ⟨some { cache := dictInsert configsKey
                            ((dictGet? configsKey c.cache).getD []) c.cache,
                          deps := c.deps ++ [fn] }, n⟩)
    | none =>
      match Theme.config_filename self envRef with
      | .error err => .error err
      | .ok fn =>
        .ok (n, ⟨some { cache := dictInsert configsKey
                          (dictInsert self.id n ((dictGet? configsKey c.cache).getD []))
                          (dictInsert configsKey
                            ((dictGet? configsKey c.cache).getD []) c.cache),
                        deps := c.deps ++ [fn] }, n + 1⟩)
  | ⟨some c, n⟩, true =>
    match Theme.config_filename self envRef with
    | .error err => .error err
    | .ok fn =>
      .ok (n, ⟨some { c with deps := c.deps ++ [fn] }, n + 1⟩)
  | ⟨none, n⟩, _ =>
    match Theme.config_filename self envRef with
    | .error err => .error err
    | .ok fn => .ok (n, ⟨none, n + 1⟩)

/-- Json-serializable field values of `Theme.to_json`. -/
inductive JVal where
  | s (v : String)
  | opt (v : Option String)
deriving DecidableEq, Repr

/-- `Theme.to_json`: the introspection snapshot.  The dict literal evaluates
`self.version` before `self.path`, so a missing distribution raises before
the environment back-reference is consulted. -/
def Theme.to_json (self : Theme) (envRef : Option EnvObj)
    (dist : List (String × String)) : Except Err (List (String × JVal)) :=
  match Theme.version self envRef dist with
  | .error err => .error err
  | .ok v =>
    match Theme.path self envRef with
    | .error err => .error err
    | .ok p =>
      .ok [("id", .s self.id), ("name", .s self.name), ("version", .s v),
           ("description", .s self.description), ("path", .opt p),
           ("import_name", .s (Theme.import_name self envRef))]

/-- C5: within one active build context, two `get_config(fresh=False)` calls
return the identical cached config object — the second call hits the cache
entry left by the first —, while `get_config(fresh=True)` builds a distinct
fresh object on every call and leaves the context's cache unchanged. -/
theorem get_config_cache_spec (self : Theme) (e : EnvObj) (c : BuildCtx) (n : Nat) :
    (∀ cfg1 w1 cfg2 w2,
      Theme.get_config self (some e) false ⟨some c, n⟩ = .ok (cfg1, w1) →
      Theme.get_config self (some e) false w1 = .ok (cfg2, w2) →
      cfg2 = cfg1 ∧
        dictGet? self.id ((dictGet? configsKey (cacheOf w1)).getD []) = some cfg1) ∧
    (∀ cfg1 w1 cfg2 w2,
      Theme.get_config self (some e) true ⟨some c, n⟩ = .ok (cfg1, w1) →
      Theme.get_config self (some e) true w1 = .ok (cfg2, w2) →
      cfg1 ≠ cfg2 ∧ cacheOf w1 = cacheOf ⟨some c, n⟩ ∧ cacheOf w2 = cacheOf w1) := by
  constructor
  · intro cfg1 w1 cfg2 w2 h1 h2
    cases hin : dictGet? self.id ((dictGet? configsKey c.cache).getD []) with
    | some cfg =>
      simp only [Theme.get_config, Theme.config_filename, Theme.env, hin] at h1
      rw [Except.ok.injEq, Prod.mk.injEq] at h1
      obtain ⟨hcfg, hw⟩ := h1
      subst hcfg
      subst hw
      simp only [Theme.get_config, Theme.config_filename, Theme.env,
        dictGet?_dictInsert_self, Option.getD_some, hin] at h2
      rw [Except.ok.injEq, Prod.mk.injEq] at h2
      obtain ⟨hcfg2, hw2⟩ := h2
      subst hcfg2
      subst hw2
      exact ⟨rfl, by
        simp only [cacheOf, dictGet?_dictInsert_self, Option.getD_some, hin]⟩
    | none =>
      simp only [Theme.get_config, Theme.config_filename, Theme.env, hin] at h1
      rw [Except.ok.injEq, Prod.mk.injEq] at h1
      obtain ⟨hcfg, hw⟩ := h1
      subst hcfg
      subst hw
      simp only [Theme.get_config, Theme.config_filename, Theme.env,
        dictGet?_dictInsert_self, Option.getD_some] at h2
      rw [Except.ok.injEq, Prod.mk.injEq] at h2
      obtain ⟨hcfg2, hw2⟩ := h2
      subst hcfg2
      subst hw2
      exact ⟨rfl, by
        simp only [cacheOf, dictGet?_dictInsert_self, Option.getD_some]⟩
  · intro cfg1 w1 cfg2 w2 h1 h2
    simp only [Theme.get_config, Theme.config_filename, Theme.env] at h1
    rw [Except.ok.injEq, Prod.mk.injEq] at h1
    obtain ⟨hcfg, hw⟩ := h1
    subst hcfg
    subst hw
    simp only [Theme.get_config, Theme.config_filename, Theme.env] at h2
    rw [Except.ok.injEq, Prod.mk.injEq] at h2
    obtain ⟨hcfg2, hw2⟩ := h2
    subst hcfg2
    subst hw2
    exact ⟨by omega, rfl, rfl⟩

/-- Environment used for concrete cache runs. -/
def envW : EnvObj := { root_path := "/proj", package_cache_path := "/cache", themes := [] }

/-- C5 witness: two concrete cached reads return the same object 0, and two
concrete fresh reads return the distinct objects 0 and 1 while the cache
stays untouched; the characteristic equalities come from the cache-spec
theorem applied at these runs. -/
theorem get_config_cache_spec_witness :
    Theme.get_config wD (some envW) false ⟨some ⟨[], []⟩, 0⟩ =
      .ok (0, ⟨some ⟨[(configsKey, [("delta", 0)])], ["/proj/configs/delta.ini"]⟩, 1⟩) ∧
    Theme.get_config wD (some envW) false
        ⟨some ⟨[(configsKey, [("delta", 0)])], ["/proj/configs/delta.ini"]⟩, 1⟩ =
      .ok (0, ⟨some ⟨[(configsKey, [("delta", 0)])],
        ["/proj/configs/delta.ini", "/proj/configs/delta.ini"]⟩, 1⟩) ∧
    ((0 : Nat) = 0 ∧
      dictGet? wD.id ((dictGet? configsKey (cacheOf
        ⟨some ⟨[(configsKey, [("delta", 0)])], ["/proj/configs/delta.ini"]⟩, 1⟩)).getD []) =
        some 0) ∧
    Theme.get_config wD (some envW) true ⟨some ⟨[], []⟩, 0⟩ =
      .ok (0, ⟨some ⟨[], ["/proj/configs/delta.ini"]⟩, 1⟩) ∧
    Theme.get_config wD (some envW) true ⟨some ⟨[], ["/proj/configs/delta.ini"]⟩, 1⟩ =
      .ok (1, ⟨some ⟨[], ["/proj/configs/delta.ini", "/proj/configs/delta.ini"]⟩, 2⟩) ∧
    ((0 : Nat) ≠ 1 ∧
      cacheOf (⟨some ⟨[], ["/proj/configs/delta.ini"]⟩, 1⟩ : World) =
        cacheOf ⟨some ⟨[], []⟩, 0⟩ ∧
      cacheOf (⟨some ⟨[], ["/proj/configs/delta.ini", "/proj/configs/delta.ini"]⟩, 2⟩ : World) =
        cacheOf (⟨some ⟨[], ["/proj/configs/delta.ini"]⟩, 1⟩ : World)) :=
  ⟨rfl, rfl,
    (get_config_cache_spec wD envW ⟨[], []⟩ 0).1 0
      ⟨some ⟨[(configsKey, [("delta", 0)])], ["/proj/configs/delta.ini"]⟩, 1⟩ 0
      ⟨some ⟨[(configsKey, [("delta", 0)])],
        ["/proj/configs/delta.ini", "/proj/configs/delta.ini"]⟩, 1⟩ rfl rfl,
    rfl, rfl,
    (get_config_cache_spec wD envW ⟨[], []⟩ 0).2 0
      ⟨some ⟨[], ["/proj/configs/delta.ini"]⟩, 1⟩ 1
      ⟨some ⟨[], ["/proj/configs/delta.ini", "/proj/configs/delta.ini"]⟩, 2⟩ rfl rfl⟩

/-- C6 counterexample: after the environment is destroyed, `Theme.version`
still succeeds — it looks the distribution up by name and never consults the
environment back-reference — so not every access through a stale handle
fails with the unavailable error. -/
theorem dead_env_version_counterexample :
    Theme.version wA none [("lektor-alpha", "1.0")] = .ok "1.0" ∧
    (Except.ok "1.0" : Except Err String) ≠ .error .environmentWentAway :=
  ⟨rfl, fun h => Except.noConfusion h⟩

/-- C6 (amended): once the environment is destroyed, every access through a
previously obtained handle that resolves the back-reference — `path`,
`load_config`, `emit`, `describe` — fails with
`RuntimeError('Environment went away')`, on every call; `version` and
`import_name` never consult the environment, so they still succeed
(`version` returning the installed distribution's version). -/
theorem dead_env_accessors (self : Theme) (fresh : Bool) (w : World)
    (ev : String) (kw : Kwargs) (dist : List (String × String)) (v : String)
    (hdist : dictGet? ("lektor-" ++ self.id) dist = some v) :
    Theme.path self none = .error .environmentWentAway ∧
    Theme.get_config self none fresh w = .error .environmentWentAway ∧
    Theme.emit self none ev kw = .error .environmentWentAway ∧
    Theme.to_json self none dist = .error .environmentWentAway ∧
    Theme.version self none dist = .ok v ∧
    Theme.import_name self none = self.modName ++ ":" ++ self.clsName := by
  refine ⟨rfl, ?_, rfl, ?_, ?_, rfl⟩
  · obtain ⟨ctxw, n⟩ := w
    cases ctxw with
    | none => cases fresh <;> rfl
    | some c =>
      cases fresh with
      | true => rfl
      | false =>
        simp only [Theme.get_config]
        cases dictGet? self.id ((dictGet? configsKey c.cache).getD []) <;> rfl
  · simp only [Theme.to_json, Theme.version, hdist, Theme.path, Theme.env]
  · simp only [Theme.version, hdist]

/-- C6 witness: a concrete stale handle with an installed distribution:
the environment-resolving accessors all fail, `version` still returns
`"1.0"` and `import_name` its static string. -/
theorem dead_env_accessors_witness :
    dictGet? ("lektor-" ++ wA.id) [("lektor-alpha", "1.0")] = some "1.0" ∧
    (Theme.path wA none = .error .environmentWentAway ∧
      Theme.get_config wA none false ⟨some ⟨[], []⟩, 0⟩ = .error .environmentWentAway ∧
      Theme.emit wA none "setup-env" [] = .error .environmentWentAway ∧
      Theme.to_json wA none [("lektor-alpha", "1.0")] = .error .environmentWentAway ∧
      Theme.version wA none [("lektor-alpha", "1.0")] = .ok "1.0" ∧
      Theme.import_name wA none = wA.modName ++ ":" ++ wA.clsName) :=
  ⟨rfl, dead_env_accessors wA false ⟨some ⟨[], []⟩, 0⟩ "setup-env" []
    [("lektor-alpha", "1.0")] "1.0" rfl⟩

/-- Python `str.lower()`, character-wise. -/
def pyLower (s : String) : String := String.mk (s.data.map Char.toLower)

/-- A discovered entry point under `'lektor.themes'`: `ep.name`,
`ep.dist.project_name`, and the concrete class `ep.load()` would return
(class identity, as in the registry embedding). -/
structure EntryPoint where
  name : String
  dist_project_name : String
  cls : Nat
deriving DecidableEq, Repr

/-- The loop of `load_themes`: checks
`'lektor-' + ep.name.lower() != ep.dist.project_name.lower()` and raises the
mismatch `RuntimeError` before invoking the loader; otherwise stores
`rv[ep.name] = ep.load()` and continues. -/
def load_themesGo : List (String × Nat) → List EntryPoint → Except Err (List (String × Nat))
  | rv, [] => .ok rv
  | rv, ep :: rest =>
    if "lektor-" ++ pyLower ep.name ≠ pyLower ep.dist_project_name then
      .error (.namingMismatch ep.name ep.dist_project_name)
    else
      load_themesGo (dictInsert ep.name ep.cls rv) rest

/-- `load_themes()` over the given sequence of discovered entry points. -/
def load_themes (eps : List EntryPoint) : Except Err (List (String × Nat)) :=
  load_themesGo [] eps

/-- Instrumentation of the same loop: the entry points whose loader
(`ep.load()`) actually gets invoked, in order; a naming mismatch stops the
loop before invoking that candidate's loader. -/
def loadedEntryPoints : List EntryPoint → List String
  | [] => []
  | ep :: rest =>
    if "lektor-" ++ pyLower ep.name ≠ pyLower ep.dist_project_name then []
    else ep.name :: loadedEntryPoints rest

theorem loadedEntryPoints_all_ok (eps : List EntryPoint) :
    (∀ ep ∈ eps, ("lektor-" ++ pyLower ep.name) = pyLower ep.dist_project_name) →
    loadedEntryPoints eps = eps.map EntryPoint.name := by
  induction eps with
  | nil => intro _; rfl
  | cons ep rest ih =>
    intro hok
    simp only [loadedEntryPoints,
      if_neg (not_not_intro (hok ep (List.mem_cons_self _ _))), List.map_cons,
      List.cons.injEq]
    exact ⟨trivial, ih (fun e' he' => hok e' (List.mem_cons_of_mem _ he'))⟩

theorem load_themesGo_ok (eps : List EntryPoint) :
    ∀ acc : List (String × Nat),
    (∀ ep ∈ eps, ("lektor-" ++ pyLower ep.name) = pyLower ep.dist_project_name) →
    (∀ ep ∈ eps, dictGet? ep.name acc = none) →
    (eps.map EntryPoint.name).Nodup →
    load_themesGo acc eps = .ok (acc ++ eps.map fun ep => (ep.name, ep.cls)) := by
  induction eps with
  | nil => intro acc _ _ _; simp [load_themesGo]
  | cons ep rest ih =>
    intro acc hok hacc hnd
    rw [List.map_cons, List.nodup_cons] at hnd
    obtain ⟨hnotin, hndrest⟩ := hnd
    simp only [load_themesGo,
      if_neg (not_not_intro (hok ep (List.mem_cons_self _ _)))]
    have hacc2 : ∀ ep' ∈ rest, dictGet? ep'.name (dictInsert ep.name ep.cls acc) = none := by
      intro ep' hm
      have hne : ep'.name ≠ ep.name := by
        intro hh
        have hmem : ep'.name ∈ rest.map EntryPoint.name :=
          List.mem_map_of_mem EntryPoint.name hm
        rw [hh] at hmem
        exact hnotin hmem
      rw [dictGet?_dictInsert_ne _ _ hne]
      exact hacc ep' (List.mem_cons_of_mem _ hm)
    rw [ih (dictInsert ep.name ep.cls acc)
      (fun e' he' => hok e' (List.mem_cons_of_mem _ he')) hacc2 hndrest]
    rw [dictInsert_fresh _ (hacc ep (List.mem_cons_self _ _))]
    simp

theorem load_themesGo_error (bad : EntryPoint)
    (hbad : ("lektor-" ++ pyLower bad.name) ≠ pyLower bad.dist_project_name)
    (pre : List EntryPoint) :
    ∀ (post : List EntryPoint) (acc : List (String × Nat)),
    (∀ ep ∈ pre, ("lektor-" ++ pyLower ep.name) = pyLower ep.dist_project_name) →
    load_themesGo acc (pre ++ bad :: post) =
      .error (.namingMismatch bad.name bad.dist_project_name) ∧
    loadedEntryPoints (pre ++ bad :: post) = pre.map EntryPoint.name := by
  induction pre with
  | nil =>
    intro post acc _
    constructor
    · simp only [List.nil_append, load_themesGo, if_pos hbad]
    · simp only [List.nil_append, loadedEntryPoints, if_pos hbad, List.map_nil]
  | cons ep rest ih =>
    intro post acc hok
    have hep := hok ep (List.mem_cons_self _ _)
    have hrec := ih post (dictInsert ep.name ep.cls acc)
      (fun e' he' => hok e' (List.mem_cons_of_mem _ he'))
    constructor
    · simp only [List.cons_append, load_themesGo, if_neg (not_not_intro hep)]
      exact hrec.1
    · simp only [List.cons_append, loadedEntryPoints, if_neg (not_not_intro hep),
        List.append_eq]
      rw [hrec.2, List.map_cons]

/-- C7: discovery validates `'lektor-' + entryName.lower() ==
distributionName.lower()` for each candidate in order; the first mismatch
raises the naming `RuntimeError` and stops the loop with no later candidate
(and not the mismatching one) loaded, while a fully matching sequence loads
every candidate and returns the name-to-class mapping. -/
theorem load_themes_naming_contract (eps : List EntryPoint) :
    ((eps.map EntryPoint.name).Nodup →
      (∀ ep ∈ eps, ("lektor-" ++ pyLower ep.name) = pyLower ep.dist_project_name) →
      load_themes eps = .ok (eps.map fun ep => (ep.name, ep.cls)) ∧
      loadedEntryPoints eps = eps.map EntryPoint.name) ∧
    (∀ pre bad post, eps = pre ++ bad :: post →
      (∀ ep ∈ pre, ("lektor-" ++ pyLower ep.name) = pyLower ep.dist_project_name) →
      ("lektor-" ++ pyLower bad.name) ≠ pyLower bad.dist_project_name →
      load_themes eps = .error (.namingMismatch bad.name bad.dist_project_name) ∧
      loadedEntryPoints eps = pre.map EntryPoint.name) := by
  constructor
  · intro hnd hok
    refine ⟨?_, loadedEntryPoints_all_ok eps hok⟩
    have h := load_themesGo_ok eps [] hok (fun _ _ => rfl) hnd
    simpa [load_themes] using h
  · intro pre bad post heq hok hbad
    subst heq
    exact load_themesGo_error bad hbad pre post [] hok

/-- Well-named sample entry point (`lektor-theme1` distributes `Theme1`). -/
def epOk : EntryPoint := { name := "Theme1", dist_project_name := "Lektor-Theme1", cls := 4 }

/-- Mis-named sample entry point: the spec's `weird-pkg` / `theme1` pair. -/
def epBad : EntryPoint := { name := "theme1", dist_project_name := "weird-pkg", cls := 5 }

/-- C7 witness: with a well-named candidate followed by the `weird-pkg`
candidate, discovery raises the naming mismatch, loads only the first
candidate, and never invokes the mismatching loader. -/
theorem load_themes_naming_contract_witness :
    ([epOk, epBad] : List EntryPoint) = [epOk] ++ epBad :: [] ∧
    (∀ ep ∈ [epOk], ("lektor-" ++ pyLower ep.name) = pyLower ep.dist_project_name) ∧
    ("lektor-" ++ pyLower epBad.name) ≠ pyLower epBad.dist_project_name ∧
    (load_themes [epOk, epBad] =
        .error (.namingMismatch epBad.name epBad.dist_project_name) ∧
      loadedEntryPoints [epOk, epBad] = [epOk].map EntryPoint.name) :=
  ⟨rfl, by decide, by decide,
    (load_themes_naming_contract [epOk, epBad]).2 [epOk] epBad [] rfl
      (by decide) (by decide)⟩
